import Mathlib

/-!
Verification of the rule validation and build-orchestration pipeline of the
sing-box-rules repository, shallowly embedded from the JavaScript sources
(scripts/utils/rule-parser.js, scripts/utils/srs-builder.js,
scripts/validate-rules.js, scripts/build-rules.js).

Strings are handled through their underlying character lists with structural
recursion, so every definition is executable and decidable on concrete input.
The JavaScript regular expressions are translated into equivalent decidable
predicates on character lists; each translation is documented next to the
regex it embeds.  File-system state is passed explicitly as association
lists from path to content, and the external sing-box compiler and the
fallback JSON write are modelled by outcome records (exit status, output
file existence and size, write success), since they are external
collaborators of the pipeline.  Console logging and file writes are tracked
as an explicit effect list.
-/

/-- ASCII decimal digit, the class `\d` of the JavaScript regexes. -/
def isDigitAscii (c : Char) : Bool :=
  decide ('0' ≤ c) && decide (c ≤ '9')

/-- ASCII letter or digit, the class `[a-zA-Z0-9]`. -/
def isAlnumAscii (c : Char) : Bool :=
  (decide ('a' ≤ c) && decide (c ≤ 'z')) ||
  (decide ('A' ≤ c) && decide (c ≤ 'Z')) ||
  (decide ('0' ≤ c) && decide (c ≤ '9'))

/-- ASCII hexadecimal digit, the class `[0-9a-fA-F]`. -/
def isHexAscii (c : Char) : Bool :=
  (decide ('0' ≤ c) && decide (c ≤ '9')) ||
  (decide ('a' ≤ c) && decide (c ≤ 'f')) ||
  (decide ('A' ≤ c) && decide (c ≤ 'F'))

/-- The whitespace characters String.prototype.trim removes (ASCII part). -/
def isJsSpace (c : Char) : Bool :=
  c == ' ' || c == '\t' || c == '\n' || c == '\r' ||
  c == '\x0b' || c == '\x0c'

/-- Model of JavaScript String.prototype.trim on a character list. -/
def trimChars (cs : List Char) : List Char :=
  ((cs.dropWhile isJsSpace).reverse.dropWhile isJsSpace).reverse

/-- Split a character list at every occurrence of the separator, the
behaviour of JavaScript String.prototype.split with a one-character
separator (and of splitting into the groups the regexes inspect): the
empty list yields one empty field, and consecutive separators yield empty
fields. -/
def splitOnChar (sep : Char) : List Char → List (List Char)
  | [] => [[]]
  | c :: rest =>
    let r := splitOnChar sep rest
    if c == sep then [] :: r
    else
      match r with
      | [] => [[c]]
      | h :: t => (c :: h) :: t

/-- `line.startsWith('#')` on a character list. -/
def startsWithHash : List Char → Bool
  | '#' :: _ => true
  | _ => false

/-- `line.startsWith('//')` on a character list. -/
def startsWithSlashes : List Char → Bool
  | '/' :: '/' :: _ => true
  | _ => false

/-- JavaScript trim lifted back to strings (`rule.trim()`). -/
def jsTrim (s : String) : String :=
  String.mk (trimChars s.data)

/-!
## RuleParser (scripts/utils/rule-parser.js)
-/

/-- A single label of the hostname grammar: the language of the regex group
`[a-zA-Z0-9]([a-zA-Z0-9\-]{0,61}[a-zA-Z0-9])?` — one alphanumeric
character, or 2 to 63 characters that start and end alphanumeric with
alphanumerics or hyphens in between. -/
def isDomainLabel (l : List Char) : Bool :=
  match l.head?, l.getLast? with
  | some c0, some cN =>
      isAlnumAscii c0 && isAlnumAscii cN && decide (l.length ≤ 63) &&
      l.all (fun c => isAlnumAscii c || c == '-')
  | _, _ => false

/-- The single leading dot strip of isValidDomain:
`domain.startsWith('.') ? domain.slice(1) : domain`. -/
def cleanDomainChars : List Char → List Char
  | '.' :: rest => rest
  | cs => cs

/-- RuleParser.isValidDomain: false for the empty string (falsy check),
otherwise strip one leading dot and match the anchored regex
`^L(\.L)*$` with `L` the label group above — every dot-separated field of
the cleaned string must be a valid label. -/
def isValidDomain (domain : String) : Bool :=
  if domain.data.isEmpty then false
  else (splitOnChar '.' (cleanDomainChars domain.data)).all isDomainLabel

/-- One dotted-quad group of the IPv4 regex, `\d{1,3}`. -/
def digitGroup13 (g : List Char) : Bool :=
  decide (1 ≤ g.length) && decide (g.length ≤ 3) && g.all isDigitAscii

/-- The language of the IPv4 regex `^(\d{1,3}\.){3}\d{1,3}\/\d{1,2}$`:
exactly one slash, the address part made of exactly four dot-separated
groups of one to three digits, and a one or two digit suffix. -/
def ipv4CidrMatch (cs : List Char) : Bool :=
  match splitOnChar '/' cs with
  | [addr, suffix] =>
    (match splitOnChar '.' addr with
     | [a, b, c, d] =>
        digitGroup13 a && digitGroup13 b && digitGroup13 c && digitGroup13 d
     | _ => false) &&
    decide (1 ≤ suffix.length) && decide (suffix.length ≤ 2) &&
    suffix.all isDigitAscii
  | _ => false

/-- One hexadecimal group of the IPv6 regex, `[0-9a-fA-F]{1,4}`. -/
def hexGroup (g : List Char) : Bool :=
  decide (1 ≤ g.length) && decide (g.length ≤ 4) && g.all isHexAscii

/-- First empty field of a colon-split address, with the fields before and
after it; none when no field is empty. -/
def splitAtEmpty : List (List Char) → Option (List (List Char) × List (List Char))
  | [] => none
  | g :: rest =>
    if g.isEmpty then some ([], rest)
    else
      match splitAtEmpty rest with
      | some (l, r) => some (g :: l, r)
      | none => none

/-- The bounds of the middle-`::` alternatives of the IPv6 regex, with `k`
leading and `j` trailing hexadecimal groups:
`(h:){1,6}:h` (k ≤ 6, j = 1), `(h:){1,5}(:h){1,2}`, `(h:){1,4}(:h){1,3}`,
`(h:){1,3}(:h){1,4}`, `(h:){1,2}(:h){1,5}`, `h:(:h){1,6}` (k = 1, j ≤ 6). -/
def ipv6MidBounds (k j : Nat) : Bool :=
  (decide (k ≤ 6) && decide (j = 1)) ||
  (decide (k ≤ 5) && decide (j ≤ 2)) ||
  (decide (k ≤ 4) && decide (j ≤ 3)) ||
  (decide (k ≤ 3) && decide (j ≤ 4)) ||
  (decide (k ≤ 2) && decide (j ≤ 5)) ||
  (decide (k = 1) && decide (j ≤ 6))

/-- The address part of the IPv6 regex of isValidCidr, characterised on the
colon-separated fields of the address (the address consists of hexadecimal
digits and colons only, so the split is faithful):
eight full groups `(h:){7,7}h`; a trailing double colon `(h:){1,7}:`
(one to seven groups then two empty fields); a middle double colon (the six
alternatives of ipv6MidBounds); a leading double colon `:(:h){1,7}` (two
empty fields then one to seven groups); or the bare `::` (three empty
fields). -/
def ipv6AddrMatch (parts : List (List Char)) : Bool :=
  (decide (parts.length = 8) && parts.all hexGroup) ||
  (match parts.reverse with
   | [] :: [] :: grev =>
      decide (1 ≤ grev.length) && decide (grev.length ≤ 7) && grev.all hexGroup
   | _ => false) ||
  (match splitAtEmpty parts with
   | some (gs, hs) =>
      decide (1 ≤ gs.length) && decide (1 ≤ hs.length) &&
      gs.all hexGroup && hs.all hexGroup && ipv6MidBounds gs.length hs.length
   | none => false) ||
  (match parts with
   | [] :: [] :: hs =>
      decide (1 ≤ hs.length) && decide (hs.length ≤ 7) && hs.all hexGroup
   | _ => false) ||
  (decide (parts = [[], [], []]))

/-- The IPv6 side of isValidCidr, `^(...)\/\d{1,3}$`: one slash, the
address matching the alternatives above, and a one to three digit suffix. -/
def ipv6CidrMatch (cs : List Char) : Bool :=
  match splitOnChar '/' cs with
  | [addr, suffix] =>
    ipv6AddrMatch (splitOnChar ':' addr) &&
    decide (1 ≤ suffix.length) && decide (suffix.length ≤ 3) &&
    suffix.all isDigitAscii
  | _ => false

/-- RuleParser.isValidCidr: false for the empty string (falsy check),
otherwise `ipv4Regex.test(cidr) || ipv6Regex.test(cidr)`. -/
def isValidCidr (cidr : String) : Bool :=
  if cidr.data.isEmpty then false
  else ipv4CidrMatch cidr.data || ipv6CidrMatch cidr.data

/-- RuleParser.isValidProcessName: false for the empty string (falsy
check), otherwise the regex `^[a-zA-Z0-9_\-\.]+$`. -/
def isValidProcessName (processName : String) : Bool :=
  if processName.data.isEmpty then false
  else processName.data.all
    (fun c => isAlnumAscii c || c == '_' || c == '-' || c == '.')

/-- RuleParser.filterValidRules: keep the rules passing the validator of
the type; the switch statement passes every rule through for an unknown
type. -/
def filterValidRules (rules : List String) (type : String) : List String :=
  rules.filter (fun rule =>
    if type == "domain-suffix" then isValidDomain rule
    else if type == "ip-cidr" then isValidCidr rule
    else if type == "process-name" then isValidProcessName rule
    else true)

/-- The statistics object of RuleParser.getRuleStats. -/
structure RuleStats where
  total : Nat
  empty : Nat
  duplicate : Nat
  valid : Nat
deriving Repr, DecidableEq

/-- The loop of getRuleStats: `seen` is the seen-set (JavaScript Set of
strings, membership by value), and each rule increments exactly one of the
empty, duplicate and valid counters. -/
def statsLoop : List String → List String → RuleStats → RuleStats
  | [], _, stats => stats
  | rule :: rest, seen, stats =>
    if rule == "" || jsTrim rule == "" then
      statsLoop rest seen { stats with empty := stats.empty + 1 }
    else if seen.contains rule then
      statsLoop rest seen { stats with duplicate := stats.duplicate + 1 }
    else
      statsLoop rest (rule :: seen) { stats with valid := stats.valid + 1 }

/-- RuleParser.getRuleStats. -/
def getRuleStats (rules : List String) : RuleStats :=
  statsLoop rules [] { total := rules.length, empty := 0, duplicate := 0, valid := 0 }

/-!
## SrsBuilder (scripts/utils/srs-builder.js) and RuleBuilder
(scripts/build-rules.js)

The file system is an association list from path to content; the external
sing-box subprocess and the fallback JSON write are external collaborators,
modelled by outcome records.  Console warnings and errors, file writes into
the output directory, and compiler invocations are recorded as effects
(informational logs and the always-cleaned temp-directory files are not
tracked).
-/

/-- Observable side effects of a build step. -/
inductive Effect where
  | warn (msg : String)
  | logError (msg : String)
  | wroteFile (path : String)
  | ranCompiler (outputPath : String)
deriving Repr, DecidableEq

/-- RuleParser.parseTextFile over an explicit file system: a missing file
yields an empty rule list and a console warning; otherwise the content is
split into lines, each line trimmed, and blank lines and `#` or `//`
comments dropped. -/
def parseTextFile (files : List (String × String)) (filePath : String) :
    List String × List Effect :=
  match files.lookup filePath with
  | none => ([], [Effect.warn ("Source file not found: " ++ filePath)])
  | some content =>
    ((((splitOnChar '\n' content.data).map trimChars).filter
        (fun line => !line.isEmpty && !startsWithHash line &&
          !startsWithSlashes line)).map String.mk,
     [])

/-- Outcome of the external `sing-box rule-set compile` invocation:
whether execSync returned (zero exit within the timeout), and whether the
output file exists afterwards and with what size. -/
structure CompilerOutcome where
  execOk : Bool
  outputExists : Bool
  outputSize : Nat
deriving Repr, DecidableEq

/-- Outcome of the fallback `fs.writeFileSync` of the JSON document. -/
structure FallbackOutcome where
  writeOk : Bool
deriving Repr, DecidableEq

/-- SrsBuilder.buildWithSingBox: run the compiler; success means the
subprocess completed and the output file exists with positive size; a
thrown error (non-zero exit or timeout) or a missing or empty output file
yields false. -/
def buildWithSingBox (c : CompilerOutcome) (outputFile : String) :
    Bool × List Effect :=
  if c.execOk then
    if c.outputExists && decide (0 < c.outputSize) then
      (true, [Effect.ranCompiler outputFile])
    else
      (false, [Effect.ranCompiler outputFile,
               Effect.warn ("SRS file build failed: " ++ outputFile)])
  else
    (false, [Effect.ranCompiler outputFile,
             Effect.logError "sing-box build failed"])

/-- The fallback file name, `outputFile.replace('.srs', '.json')`
(JavaScript replace substitutes the first occurrence; output names here
contain one `.srs`). -/
def jsonFallbackName (outputFile : String) : String :=
  outputFile.replace ".srs" ".json"

/-- SrsBuilder.buildFallback: write the assembled document as JSON next to
the intended output; true exactly when the write succeeds. -/
def buildFallback (f : FallbackOutcome) (outputFile : String) :
    Bool × List Effect :=
  if f.writeOk then
    (true, [Effect.wroteFile (jsonFallbackName outputFile)])
  else
    (false, [Effect.logError "Fallback build failed"])

/-- SrsBuilder.buildSrsFile: try the sing-box compiler first, and on
failure fall back to the JSON write. -/
def buildSrsFile (c : CompilerOutcome) (f : FallbackOutcome)
    (outputFile : String) : Bool × List Effect :=
  let sb := buildWithSingBox c outputFile
  if sb.1 then (true, sb.2)
  else
    let fb := buildFallback f outputFile
    (fb.1, sb.2 ++ fb.2)

/-- The fields of a rule template the builder reads. -/
structure RuleTemplate where
  version : Int
  type : String
  description : String
deriving Repr, DecidableEq

/-- `path.basename(outputFile, '.srs')` for the flat output names used
here: strip a trailing `.srs` (computed on the character list so that it
reduces on concrete input). -/
def srsBaseName (outputFile : String) : String :=
  if outputFile.data.reverse.take 4 == ['s', 'r', 's', '.'] then
    String.mk ((outputFile.data.reverse.drop 4).reverse)
  else outputFile

/-- RuleBuilder.loadTemplate: try the template named after the output file
first, then the generic template of the type; none models the thrown
`Template not found` error. -/
def loadTemplate (templates : List (String × RuleTemplate))
    (outputFile type : String) : Option RuleTemplate :=
  match templates.lookup (srsBaseName outputFile ++ ".json") with
  | some t => some t
  | none => templates.lookup (type ++ ".json")

/-- The non-null result of RuleBuilder.buildRule: output artifact metadata
(the built_at wall-clock timestamp is not modelled). -/
structure BuildArtifact where
  type : String
  source : String
  output : String
  rules : List String
  count : Nat
  stats : RuleStats
deriving Repr, DecidableEq

/-- One entry of the static config list of buildAll. -/
structure RuleConfig where
  type : String
  source : String
  output : String
deriving Repr, DecidableEq

/-- The environment a build runs in: source files, template files, and the
behaviour of the external compiler and of the fallback write, keyed by
output file name. -/
structure BuildEnv where
  sources : List (String × String)
  templates : List (String × RuleTemplate)
  compiler : String → CompilerOutcome
  fallback : String → FallbackOutcome

/-- RuleBuilder.buildRule: parse the source (skip with a warning when no
lines survive), filter valid rules (skip with a warning when none
remain), compute the statistics, load the template (a missing template
throws, caught as a logged error and null), then build the SRS file and
return the artifact exactly when buildSrsFile reported success. -/
def buildRule (env : BuildEnv) (type sourceFile outputFile : String) :
    Option BuildArtifact × List Effect :=
  let pr := parseTextFile env.sources sourceFile
  let rules := pr.1
  if rules.length == 0 then
    (none, pr.2 ++ [Effect.warn ("No rules found in " ++ sourceFile ++ ", skipping...")])
  else
    let validRules := filterValidRules rules type
    if validRules.length == 0 then
      (none, pr.2 ++ [Effect.warn ("No valid rules found in " ++ sourceFile ++ ", skipping...")])
    else
      let stats := getRuleStats rules
      match loadTemplate env.templates outputFile type with
      | none =>
        (none, pr.2 ++ [Effect.logError ("Failed to build " ++ type ++ " from " ++ sourceFile)])
      | some _ =>
        let sr := buildSrsFile (env.compiler outputFile) (env.fallback outputFile) outputFile
        if sr.1 then
          (some { type := type, source := sourceFile, output := outputFile,
                  rules := validRules, count := validRules.length, stats := stats },
           pr.2 ++ sr.2)
        else
          (none, pr.2 ++ sr.2)

/-- The accumulating result record of buildAll. -/
structure BuildResults where
  success : List BuildArtifact
  failed : List RuleConfig
  skipped : List RuleConfig
  totalRules : Nat
deriving Repr, DecidableEq

/-- The static config list of RuleBuilder.buildAll. -/
def ruleConfigs : List RuleConfig :=
  [ { type := "domain-suffix", source := "direct-domains.txt", output := "direct-domains.srs" },
    { type := "ip-cidr", source := "direct-ips.txt", output := "direct-ips.srs" },
    { type := "process-name", source := "direct-process.txt", output := "direct-process.srs" },
    { type := "domain-suffix", source := "proxy-domains.txt", output := "proxy-domains.srs" },
    { type := "domain-suffix", source := "proxy-domains-private.txt", output := "proxy-domains-private.srs" },
    { type := "ip-cidr", source := "proxy-ips.txt", output := "proxy-ips.srs" },
    { type := "process-name", source := "proxy-process.txt", output := "proxy-process.srs" } ]

/-- One iteration of the buildAll loop: a non-null result is pushed onto
the success list with its rule count accumulated, a null result pushes the
config onto the skipped list (buildRule catches its own errors, so the
failed list of the source is populated only by errors that escape it —
never in this model). -/
def buildStep (env : BuildEnv) (acc : BuildResults) (config : RuleConfig) :
    BuildResults :=
  match (buildRule env config.type config.source config.output).1 with
  | some r => { acc with success := acc.success ++ [r],
                         totalRules := acc.totalRules + r.rules.length }
  | none => { acc with skipped := acc.skipped ++ [config] }

/-- RuleBuilder.buildAll: fold the static config list, never stopping on a
failed config. -/
def buildAll (env : BuildEnv) : BuildResults :=
  ruleConfigs.foldl (buildStep env)
    { success := [], failed := [], skipped := [], totalRules := 0 }

/-!
## RuleValidator (scripts/validate-rules.js)
-/

/-- The stats object of a source validation result. -/
structure SourceStats where
  total : Nat
  valid : Nat
  invalid : Nat
  duplicate : Nat
deriving Repr, DecidableEq

/-- The result object of RuleValidator.validateSourceFile. -/
structure SourceValidationResult where
  file : String
  type : String
  valid : Bool
  errors : List String
  warnings : List String
  stats : SourceStats
deriving Repr, DecidableEq

/-- The duplicate-counting loop of validateSourceFile (lines 60-69 of the
source): a seen-set pass counting repeated occurrences. -/
def countDuplicatesLoop : List String → List String → Nat
  | [], _ => 0
  | r :: rest, seen =>
    if seen.contains r then countDuplicatesLoop rest seen + 1
    else countDuplicatesLoop rest (r :: seen)

/-- RuleValidator.validateSourceFile over an explicit file system: a
missing source file is recorded as an error and marks the result invalid; a
file with no rules returns valid with a warning; otherwise invalid rules
make the result invalid with an error, the first ten invalid rules and any
duplicates are reported as warnings. -/
def validateSourceFile (files : List (String × String))
    (sourceFile type : String) : SourceValidationResult :=
  if (files.lookup sourceFile).isNone then
    { file := sourceFile, type := type, valid := false,
      errors := ["Source file not found: " ++ sourceFile],
      warnings := [],
      stats := { total := 0, valid := 0, invalid := 0, duplicate := 0 } }
  else
    let rules := (parseTextFile files sourceFile).1
    if rules.length == 0 then
      { file := sourceFile, type := type, valid := true,
        errors := [],
        warnings := ["No rules found in file"],
        stats := { total := rules.length, valid := 0, invalid := 0, duplicate := 0 } }
    else
      let validRules := filterValidRules rules type
      let invalidRules := rules.filter (fun rule => !(validRules.contains rule))
      let duplicates := countDuplicatesLoop rules []
      let invalidErrors :=
        if decide (0 < invalidRules.length) then
          ["Found " ++ toString invalidRules.length ++ " invalid rules"]
        else []
      let invalidWarnings :=
        if decide (0 < invalidRules.length) then
          (invalidRules.take 10).map (fun rule => "Invalid rule: " ++ rule) ++
          (if decide (10 < invalidRules.length) then
            ["... and " ++ toString (invalidRules.length - 10) ++ " more invalid rules"]
           else [])
        else []
      let dupWarnings :=
        if decide (0 < duplicates) then
          ["Found " ++ toString duplicates ++ " duplicate rules"]
        else []
      { file := sourceFile, type := type,
        valid := decide (invalidRules.length = 0),
        errors := invalidErrors,
        warnings := invalidWarnings ++ dupWarnings,
        stats := { total := rules.length, valid := validRules.length,
                   invalid := invalidRules.length, duplicate := duplicates } }

/-- JSON values as parsed by readJsonFile (objects as field lists; JSON
objects from JSON.parse have no duplicate keys). -/
inductive JsonValue where
  | null
  | bool (b : Bool)
  | num (n : Int)
  | str (s : String)
  | arr (elems : List JsonValue)
  | obj (fields : List (String × JsonValue))

/-- Property access `template.<f>` on a parsed template object; none is
the JavaScript undefined of an absent property (also the hasOwnProperty
test). -/
def lookupField (t : List (String × JsonValue)) (f : String) : Option JsonValue :=
  t.lookup f

/-- `template.version !== 1` is false exactly for the JSON number 1. -/
def isVersionOne : Option JsonValue → Bool
  | some (JsonValue.num 1) => true
  | _ => false

/-- JavaScript falsiness of a property value: undefined (absent), null,
false, 0 and the empty string are falsy. -/
def jsFalsyField : Option JsonValue → Bool
  | none => true
  | some JsonValue.null => true
  | some (JsonValue.bool b) => !b
  | some (JsonValue.num n) => decide (n = 0)
  | some (JsonValue.str s) => s == ""
  | some (JsonValue.arr _) => false
  | some (JsonValue.obj _) => false

/-- `typeof template.type === 'string'`. -/
def isStringField : Option JsonValue → Bool
  | some (JsonValue.str _) => true
  | _ => false

/-- `typeof template.rules === 'object'`: objects, arrays and null. -/
def isObjectField : Option JsonValue → Bool
  | some (JsonValue.obj _) => true
  | some (JsonValue.arr _) => true
  | some JsonValue.null => true
  | _ => false

/-- The result object of RuleValidator.validateTemplate. -/
structure TemplateResult where
  file : String
  valid : Bool
  errors : List String
  warnings : List String
deriving Repr, DecidableEq

/-- The required top-level fields of a template. -/
def requiredTemplateFields : List String :=
  ["version", "rules", "description", "type"]

/-- The field checks of validateTemplate on a parsed template object
(lines 128-156 of the source): missing required fields are errors, a
version other than 1 is only a warning, a falsy or non-string type and a
falsy or non-object rules field are errors. -/
def validateTemplateObj (file : String) (t : List (String × JsonValue)) :
    TemplateResult :=
  let r0 : TemplateResult := { file := file, valid := true, errors := [], warnings := [] }
  let r1 := requiredTemplateFields.foldl
    (fun r f =>
      if (lookupField t f).isSome then r
      else { r with errors := r.errors ++ ["Missing required field: " ++ f],
                    valid := false }) r0
  let r2 :=
    if isVersionOne (lookupField t "version") then r1
    else { r1 with warnings := r1.warnings ++ ["Unexpected version (expected: 1)"] }
  let r3 :=
    if jsFalsyField (lookupField t "type") || !isStringField (lookupField t "type") then
      { r2 with errors := r2.errors ++ ["Invalid or missing type field"], valid := false }
    else r2
  let r4 :=
    if jsFalsyField (lookupField t "rules") || !isObjectField (lookupField t "rules") then
      { r3 with errors := r3.errors ++ ["Invalid rules field structure"], valid := false }
    else r3
  r4

/-- RuleValidator.validateTemplate over an explicit template directory:
the entry is the parsed object, or none when the file exists but
readJsonFile throws (caught as an error). A missing file is an error. -/
def validateTemplate
    (templateFiles : List (String × Option (List (String × JsonValue))))
    (templateFile : String) : TemplateResult :=
  match templateFiles.lookup templateFile with
  | none =>
    { file := templateFile, valid := false,
      errors := ["Template file not found: " ++ templateFile], warnings := [] }
  | some none =>
    { file := templateFile, valid := false,
      errors := ["Template validation failed"], warnings := [] }
  | some (some t) => validateTemplateObj templateFile t

/-- The summary of validateAll. -/
structure ValidationSummary where
  totalFiles : Nat
  validFiles : Nat
  invalidFiles : Nat
  totalRules : Nat
  validRules : Nat
  invalidRules : Nat
deriving Repr, DecidableEq

/-- The aggregate result of validateAll. -/
structure ValidationResults where
  sources : List SourceValidationResult
  templates : List TemplateResult
  summary : ValidationSummary
deriving Repr, DecidableEq

/-- The static source config list of RuleValidator.validateAll. -/
def validatorRuleConfigs : List (String × String) :=
  [ ("direct-domains.txt", "domain-suffix"),
    ("direct-ips.txt", "ip-cidr"),
    ("direct-process.txt", "process-name"),
    ("proxy-domains.txt", "domain-suffix"),
    ("proxy-domains-private.txt", "domain-suffix"),
    ("proxy-ips.txt", "ip-cidr"),
    ("proxy-process.txt", "process-name") ]

/-- The static template list of RuleValidator.validateAll. -/
def templateConfigs : List String :=
  ["domain-suffix.json", "ip-cidr.json", "process-name.json"]

/-- One iteration of the source loop of validateAll: rule counts are
accumulated only for valid files. -/
def validateSourceStep (files : List (String × String))
    (acc : ValidationResults) (cfg : String × String) : ValidationResults :=
  let r := validateSourceFile files cfg.1 cfg.2
  { acc with
    sources := acc.sources ++ [r],
    summary :=
      if r.valid then
        { acc.summary with
          validFiles := acc.summary.validFiles + 1,
          totalRules := acc.summary.totalRules + r.stats.total,
          validRules := acc.summary.validRules + r.stats.valid,
          invalidRules := acc.summary.invalidRules + r.stats.invalid }
      else
        { acc.summary with invalidFiles := acc.summary.invalidFiles + 1 } }

/-- One iteration of the template loop of validateAll. -/
def validateTemplateStep
    (templateFiles : List (String × Option (List (String × JsonValue))))
    (acc : ValidationResults) (tf : String) : ValidationResults :=
  let r := validateTemplate templateFiles tf
  { acc with
    templates := acc.templates ++ [r],
    summary :=
      if r.valid then { acc.summary with validFiles := acc.summary.validFiles + 1 }
      else { acc.summary with invalidFiles := acc.summary.invalidFiles + 1 } }

/-- RuleValidator.validateAll: validate every configured source and every
template, then (in the CLI) exit non-zero exactly when invalidFiles is
positive. -/
def validateAll (files : List (String × String))
    (templateFiles : List (String × Option (List (String × JsonValue)))) :
    ValidationResults :=
  let init : ValidationResults :=
    { sources := [], templates := [],
      summary := { totalFiles := validatorRuleConfigs.length + templateConfigs.length,
                   validFiles := 0, invalidFiles := 0,
                   totalRules := 0, validRules := 0, invalidRules := 0 } }
  templateConfigs.foldl (validateTemplateStep templateFiles)
    (validatorRuleConfigs.foldl (validateSourceStep files) init)

/-!
## Theorems: getRuleStats (claims about the statistics pass)
-/

/-- The blank test of the getRuleStats loop. -/
def isBlankRule (r : String) : Bool :=
  r == "" || jsTrim r == ""

/-- Blank rules seen by the loop of getRuleStats. -/
def countBlank : List String → Nat
  | [] => 0
  | r :: rest => (if isBlankRule r then 1 else 0) + countBlank rest

/-- Duplicate (already seen, non-blank) rules of the loop of getRuleStats. -/
def countDup : List String → List String → Nat
  | [], _ => 0
  | r :: rest, seen =>
    if isBlankRule r then countDup rest seen
    else if seen.contains r then countDup rest seen + 1
    else countDup rest (r :: seen)

/-- First occurrences of non-blank rules in the loop of getRuleStats. -/
def countNew : List String → List String → Nat
  | [], _ => 0
  | r :: rest, seen =>
    if isBlankRule r then countNew rest seen
    else if seen.contains r then countNew rest seen
    else countNew rest (r :: seen) + 1


theorem statsLoop_eq : ∀ (l : List String) (seen : List String) (stats : RuleStats),
    statsLoop l seen stats =
      { total := stats.total,
        empty := stats.empty + countBlank l,
        duplicate := stats.duplicate + countDup l seen,
        valid := stats.valid + countNew l seen }
  | [], seen, stats => by
    simp [statsLoop, countBlank, countDup, countNew]
  | r :: rest, seen, stats => by
    by_cases hb : isBlankRule r
    · have hb' : (r == "" || jsTrim r == "") = true := by
        simpa [isBlankRule] using hb
      simp only [statsLoop, hb', if_true, countBlank, countDup, countNew, hb,
        if_pos, statsLoop_eq rest seen]
      simp [RuleStats.mk.injEq, hb]
      omega
    · have hb' : (r == "" || jsTrim r == "") = false := by
        simpa [isBlankRule, Bool.not_eq_true] using hb
      by_cases hs : r ∈ seen
      · simp only [statsLoop, hb', Bool.false_eq_true, if_false,
          statsLoop_eq rest seen]
        simp [countBlank, countDup, countNew, hb, hs, RuleStats.mk.injEq]
        omega
      · simp only [statsLoop, hb', Bool.false_eq_true, if_false,
          statsLoop_eq rest (r :: seen)]
        simp [countBlank, countDup, countNew, hb, hs, RuleStats.mk.injEq]
        omega

theorem countBlank_eq_length_filter (l : List String) :
    countBlank l = (l.filter isBlankRule).length := by
  induction l with
  | nil => rfl
  | cons r rest ih =>
    by_cases hb : isBlankRule r
    · simp [countBlank, List.filter_cons, hb, ih]
      omega
    · simp [countBlank, List.filter_cons, hb, ih]

theorem countNew_add_countDup (l : List String) : ∀ seen,
    countNew l seen + countDup l seen
      = (l.filter (fun r => !isBlankRule r)).length := by
  induction l with
  | nil => intro seen; rfl
  | cons r rest ih =>
    intro seen
    by_cases hb : isBlankRule r
    · simp [countNew, countDup, List.filter_cons, hb, ih seen]
    · by_cases hs : r ∈ seen
      · have h := ih seen
        simp [countNew, countDup, List.filter_cons, hb, hs]
        omega
      · have h := ih (r :: seen)
        simp [countNew, countDup, List.filter_cons, hb, hs]
        omega

/-- Counting with one designated satisfying element removed from a
duplicate-free list. -/
theorem length_filter_split_nodup :
    ∀ (l : List String), l.Nodup → ∀ (a : String) (p : String → Bool), a ∈ l → p a = true →
      (l.filter p).length
        = (l.filter (fun x => p x && !decide (x = a))).length + 1 := by
  intro l
  induction l with
  | nil => intro _ a p ha; exact absurd ha (List.not_mem_nil a)
  | cons b rest ih =>
    intro hnd a p ha hp
    have hbrest : b ∉ rest := (List.nodup_cons.mp hnd).1
    have hndrest : rest.Nodup := (List.nodup_cons.mp hnd).2
    rcases List.mem_cons.mp ha with hab | harest
    · subst hab
      have h2 : rest.filter (fun x => p x && !decide (x = a)) = rest.filter p := by
        apply List.filter_congr
        intro x hx
        have hxa : x ≠ a := fun h => hbrest (h ▸ hx)
        simp [hxa]
      simp [List.filter_cons, hp, h2]
    · have hab : b ≠ a := fun h => hbrest (h ▸ harest)
      by_cases hpb : p b = true
      · simp [List.filter_cons, hpb, hab, ih hndrest a p harest hp]
      · simp only [Bool.not_eq_true] at hpb
        simp [List.filter_cons, hpb, ih hndrest a p harest hp]

theorem countNew_eq_dedup (l : List String) : ∀ seen : List String,
    countNew l seen =
      ((l.filter (fun r => !isBlankRule r)).dedup.filter
        (fun x => !decide (x ∈ seen))).length := by
  induction l with
  | nil => intro seen; rfl
  | cons r rest ih =>
    intro seen
    by_cases hb : isBlankRule r
    · simp [countNew, List.filter_cons, hb, ih seen]
    · have hfc : (r :: rest).filter (fun x => !isBlankRule x)
          = r :: rest.filter (fun x => !isBlankRule x) := by
        simp [List.filter_cons, hb]
      by_cases hs : r ∈ seen
      · have hstep : countNew (r :: rest) seen = countNew rest seen := by
          simp [countNew, hb, hs]
        rw [hstep, ih seen, hfc]
        by_cases hmem : r ∈ rest.filter (fun x => !isBlankRule x)
        · rw [List.dedup_cons_of_mem hmem]
        · rw [List.dedup_cons_of_not_mem hmem]
          simp [List.filter_cons, hs]
      · have hstep : countNew (r :: rest) seen = countNew rest (r :: seen) + 1 := by
          simp [countNew, hb, hs]
        rw [hstep, ih (r :: seen), hfc]
        by_cases hmem : r ∈ rest.filter (fun x => !isBlankRule x)
        · rw [List.dedup_cons_of_mem hmem]
          have hrd : r ∈ (rest.filter (fun x => !isBlankRule x)).dedup :=
            List.mem_dedup.mpr hmem
          have hnd : (rest.filter (fun x => !isBlankRule x)).dedup.Nodup :=
            List.nodup_dedup _
          have hpr : (fun x => !decide (x ∈ seen)) r = true := by simp [hs]
          rw [length_filter_split_nodup _ hnd r (fun x => !decide (x ∈ seen)) hrd hpr]
          congr 2
          apply List.filter_congr
          intro x _
          by_cases hxr : x = r <;> simp [List.mem_cons, hxr, hs]
        · rw [List.dedup_cons_of_not_mem hmem]
          have heq : (rest.filter (fun x => !isBlankRule x)).dedup.filter
                (fun x => !decide (x ∈ r :: seen))
              = (rest.filter (fun x => !isBlankRule x)).dedup.filter
                (fun x => !decide (x ∈ seen)) := by
            apply List.filter_congr
            intro x hx
            have hxr : x ≠ r := fun h => hmem (List.mem_dedup.mp (h ▸ hx))
            simp [List.mem_cons, hxr]
          rw [heq, List.filter_cons]
          simp [hs]

theorem length_filter_not_add (l : List String) (p : String → Bool) :
    (l.filter (fun x => !p x)).length + (l.filter p).length = l.length := by
  induction l with
  | nil => rfl
  | cons a t ih =>
    by_cases h : p a
    · simp [List.filter_cons, h]
      omega
    · simp [List.filter_cons, h]
      omega

/-- C3: getRuleStats is the single left-to-right seen-set pass: on
`["a","b","a","","c"]` it yields total 5, empty 1, duplicate 1, valid 3,
and on every input the valid, duplicate and empty counters sum to the
total. -/
theorem getRuleStats_single_pass_sum :
    getRuleStats ["a", "b", "a", "", "c"]
      = { total := 5, empty := 1, duplicate := 1, valid := 3 } ∧
    ∀ rules : List String,
      (getRuleStats rules).valid + (getRuleStats rules).duplicate
        + (getRuleStats rules).empty = (getRuleStats rules).total := by
  constructor
  · decide
  · intro rules
    have h1 := countNew_add_countDup rules []
    have h2 := countBlank_eq_length_filter rules
    have h3 := length_filter_not_add rules isBlankRule
    simp only [getRuleStats, statsLoop_eq]
    omega

/-- C10: in getRuleStats every blank rule (empty after trimming) is
counted as empty and never as duplicate, the valid counter is the number
of distinct non-blank strings, and the duplicate counter is the number of
non-blank occurrences minus that distinct count. -/
theorem getRuleStats_blank_distinct :
    ∀ rules : List String,
      (getRuleStats rules).empty = (rules.filter isBlankRule).length ∧
      (getRuleStats rules).valid
        = ((rules.filter (fun r => !isBlankRule r)).dedup).length ∧
      (getRuleStats rules).duplicate
        = (rules.filter (fun r => !isBlankRule r)).length
          - ((rules.filter (fun r => !isBlankRule r)).dedup).length := by
  intro rules
  have hv : countNew rules []
      = ((rules.filter (fun r => !isBlankRule r)).dedup).length := by
    rw [countNew_eq_dedup]
    congr 1
    simp
  have h1 := countNew_add_countDup rules []
  have h2 := countBlank_eq_length_filter rules
  simp only [getRuleStats, statsLoop_eq]
  refine ⟨by omega, by omega, by omega⟩

/-- C4: filterValidRules passes every rule through unchanged for a type
other than domain-suffix, ip-cidr and process-name, and for the three
known types keeps exactly the rules satisfying the corresponding
validator. -/
theorem filterValidRules_dispatch :
    (∀ (rules : List String) (type : String),
        type ≠ "domain-suffix" → type ≠ "ip-cidr" → type ≠ "process-name" →
        filterValidRules rules type = rules) ∧
    ∀ rules : List String,
      filterValidRules rules "domain-suffix" = rules.filter isValidDomain ∧
      filterValidRules rules "ip-cidr" = rules.filter isValidCidr ∧
      filterValidRules rules "process-name" = rules.filter isValidProcessName := by
  constructor
  · intro rules type h1 h2 h3
    have b1 : (type == "domain-suffix") = false := by simp [h1]
    have b2 : (type == "ip-cidr") = false := by simp [h2]
    have b3 : (type == "process-name") = false := by simp [h3]
    simp [filterValidRules, b1, b2, b3]
  · intro rules
    refine ⟨?_, ?_, ?_⟩ <;> simp [filterValidRules]

/-- C9: filterValidRules returns an order-preserving subsequence of its
input and is idempotent for every type. -/
theorem filterValidRules_sublist_idempotent :
    ∀ (rules : List String) (type : String),
      List.Sublist (filterValidRules rules type) rules ∧
      filterValidRules (filterValidRules rules type) type
        = filterValidRules rules type := by
  intro rules type
  simp only [filterValidRules]
  refine ⟨List.filter_sublist _, ?_⟩
  apply List.filter_eq_self.mpr
  intro a ha
  exact (List.mem_filter.mp ha).2

/-!
## Theorems: the validators (domain, CIDR)
-/

theorem bool_eq_of_iff {a b : Bool} (h : a = true ↔ b = true) : a = b := by
  cases a <;> cases b <;> simp_all

theorem isAlnumAscii_ne_hyphen {c : Char} (h : isAlnumAscii c = true) : c ≠ '-' := by
  intro hc
  subst hc
  exact absurd h (by decide)

/-- The label grammar as the specification words it: 1 to 63 characters,
each alphanumeric or hyphen, no leading and no trailing hyphen. -/
def specDomainLabel (l : List Char) : Bool :=
  decide (1 ≤ l.length) && decide (l.length ≤ 63) &&
  l.all (fun c => isAlnumAscii c || c == '-') &&
  (match l.head? with | some c => !(c == '-') | none => false) &&
  (match l.getLast? with | some c => !(c == '-') | none => false)

theorem isDomainLabel_eq_spec : ∀ l : List Char, isDomainLabel l = specDomainLabel l := by
  intro l
  cases l with
  | nil => decide
  | cons c rest =>
    have hne : (c :: rest) ≠ [] := by simp
    have hg : (c :: rest).getLast? = some ((c :: rest).getLast hne) :=
      List.getLast?_eq_getLast_of_ne_nil hne
    have hgmem : (c :: rest).getLast hne ∈ c :: rest := List.getLast_mem hne
    simp only [isDomainLabel, specDomainLabel, List.head?_cons, hg]
    apply bool_eq_of_iff
    simp only [Bool.and_eq_true, Bool.not_eq_true', decide_eq_true_iff,
      List.all_eq_true, Bool.or_eq_true, beq_iff_eq]
    constructor
    · rintro ⟨⟨⟨hc, hgl⟩, hlen⟩, hall⟩
      refine ⟨⟨⟨⟨by simp, hlen⟩, hall⟩, ?_⟩, ?_⟩
      · exact beq_eq_false_iff_ne.mpr (isAlnumAscii_ne_hyphen hc)
      · exact beq_eq_false_iff_ne.mpr (isAlnumAscii_ne_hyphen hgl)
    · rintro ⟨⟨⟨⟨-, hlen⟩, hall⟩, hc⟩, hgl⟩
      have hcmem := hall c (List.mem_cons_self c rest)
      have hgm := hall _ hgmem
      refine ⟨⟨⟨?_, ?_⟩, hlen⟩, hall⟩
      · rcases hcmem with h | h
        · exact h
        · exact absurd h (by simpa using hc)
      · rcases hgm with h | h
        · exact h
        · exact absurd h (by simpa using hgl)

theorem isValidDomain_chars_spec (cs : List Char) :
    (if cs.isEmpty then false
     else (splitOnChar '.' (cleanDomainChars cs)).all isDomainLabel)
      = (splitOnChar '.' (cleanDomainChars cs)).all specDomainLabel := by
  cases cs with
  | nil => decide
  | cons c rest =>
    simp only [List.isEmpty_cons, Bool.false_eq_true, if_false]
    congr 1
    funext l
    exact isDomainLabel_eq_spec l

theorem isValidDomain_eq_spec (domain : String) :
    isValidDomain domain
      = (splitOnChar '.' (cleanDomainChars domain.data)).all specDomainLabel := by
  rw [isValidDomain, isValidDomain_chars_spec]

theorem specDomainLabel_bad (l : List Char)
    (hbad : l = [] ∨ l.head? = some '-' ∨
      (l ≠ [] ∧ l.all (fun c => c == '_') = true)) :
    specDomainLabel l = false := by
  rcases hbad with h | h | ⟨hne, hall⟩
  · subst h; decide
  · cases l with
    | nil => simp at h
    | cons c rest =>
      simp only [List.head?_cons, Option.some.injEq] at h
      subst h
      simp [specDomainLabel]
  · cases l with
    | nil => exact absurd rfl hne
    | cons c rest =>
      simp only [List.all_cons, Bool.and_eq_true, beq_iff_eq] at hall
      obtain ⟨hc', -⟩ := hall
      subst hc'
      have hu : (isAlnumAscii '_' || '_' == '-') = false := by decide
      have hallfalse :
          (('_' :: rest).all (fun c => isAlnumAscii c || c == '-')) = false := by
        rw [List.all_cons, hu, Bool.false_and]
      simp [specDomainLabel, hallfalse]

/-- C5: isValidDomain strips one leading dot and matches the label
grammar: the three documented examples hold, isValidDomain agrees with the
spec label grammar on every input (exactly one dot is stripped), and any
input with an empty label, a label starting with a hyphen, or an
underscore-only label is rejected. -/
theorem isValidDomain_label_grammar :
    isValidDomain "example.com" = true ∧
    isValidDomain ".example.com" = true ∧
    isValidDomain "-bad-.com" = false ∧
    isValidDomain "..example.com" = false ∧
    (∀ domain : String,
      isValidDomain domain
        = (splitOnChar '.' (cleanDomainChars domain.data)).all specDomainLabel) ∧
    ∀ (domain : String) (l : List Char),
      l ∈ splitOnChar '.' (cleanDomainChars domain.data) →
      (l = [] ∨ l.head? = some '-' ∨
        (l ≠ [] ∧ l.all (fun c => c == '_') = true)) →
      isValidDomain domain = false := by
  refine ⟨by decide, by decide, by decide, by decide, isValidDomain_eq_spec, ?_⟩
  intro domain l hmem hbad
  rw [isValidDomain_eq_spec]
  cases hall : (splitOnChar '.' (cleanDomainChars domain.data)).all specDomainLabel
  · rfl
  · exfalso
    have h1 := List.all_eq_true.mp hall l hmem
    rw [specDomainLabel_bad l hbad] at h1
    exact Bool.false_ne_true h1

theorem splitOnChar_no_sep (sep : Char) :
    ∀ l : List Char, (∀ c ∈ l, (c == sep) = false) →
      splitOnChar sep l = [l] := by
  intro l
  induction l with
  | nil => intro _; rfl
  | cons c l' ih =>
    intro h
    have hc : (c == sep) = false := h c (List.mem_cons_self c l')
    have hrest := ih (fun x hx => h x (List.mem_cons_of_mem c hx))
    simp [splitOnChar, hc, hrest]

theorem splitOnChar_append_sep (sep : Char) :
    ∀ (l r : List Char), (∀ c ∈ l, (c == sep) = false) →
      splitOnChar sep (l ++ sep :: r) = l :: splitOnChar sep r := by
  intro l
  induction l with
  | nil =>
    intro r _
    simp [splitOnChar]
  | cons c l' ih =>
    intro r h
    have hc : (c == sep) = false := h c (List.mem_cons_self c l')
    have hrest := ih r (fun x hx => h x (List.mem_cons_of_mem c hx))
    simp [splitOnChar, hc, hrest]

theorem isDigitAscii_ne_sep {c : Char} (h : isDigitAscii c = true) :
    (c == '/') = false ∧ (c == '.') = false := by
  constructor
  · cases hb : (c == '/') with
    | false => rfl
    | true => exact absurd (eq_of_beq hb ▸ h) (by decide)
  · cases hb : (c == '.') with
    | false => rfl
    | true => exact absurd (eq_of_beq hb ▸ h) (by decide)

/-- C6: isValidCidr is shape-only — the numerically out-of-range
`999.1.1.1/33` passes, and every string of four one-to-three digit groups
joined by dots, a slash and a one-or-two digit suffix passes, with no
check of octet or suffix bounds. -/
theorem isValidCidr_shape_not_bounds :
    isValidCidr "999.1.1.1/33" = true ∧
    ∀ a b c d p : List Char,
      digitGroup13 a = true → digitGroup13 b = true →
      digitGroup13 c = true → digitGroup13 d = true →
      1 ≤ p.length → p.length ≤ 2 → p.all isDigitAscii = true →
      isValidCidr (String.mk (a ++ '.' :: (b ++ '.' :: (c ++ '.' :: (d ++ '/' :: p)))))
        = true := by
  constructor
  · decide
  · intro a b c d p ha hb hc hd hp1 hp2 hpd
    obtain ⟨⟨ha1, ha3⟩, haD⟩ :
        (1 ≤ a.length ∧ a.length ≤ 3) ∧ ∀ x ∈ a, isDigitAscii x = true := by
      simpa [digitGroup13, Bool.and_eq_true, decide_eq_true_iff] using ha
    obtain ⟨⟨hb1, hb3⟩, hbD⟩ :
        (1 ≤ b.length ∧ b.length ≤ 3) ∧ ∀ x ∈ b, isDigitAscii x = true := by
      simpa [digitGroup13, Bool.and_eq_true, decide_eq_true_iff] using hb
    obtain ⟨⟨hc1, hc3⟩, hcD⟩ :
        (1 ≤ c.length ∧ c.length ≤ 3) ∧ ∀ x ∈ c, isDigitAscii x = true := by
      simpa [digitGroup13, Bool.and_eq_true, decide_eq_true_iff] using hc
    obtain ⟨⟨hd1, hd3⟩, hdD⟩ :
        (1 ≤ d.length ∧ d.length ≤ 3) ∧ ∀ x ∈ d, isDigitAscii x = true := by
      simpa [digitGroup13, Bool.and_eq_true, decide_eq_true_iff] using hd
    have hnoDotA : ∀ x ∈ a, (x == '.') = false := fun x hx =>
      (isDigitAscii_ne_sep (haD x hx)).2
    have hnoDotB : ∀ x ∈ b, (x == '.') = false := fun x hx =>
      (isDigitAscii_ne_sep (hbD x hx)).2
    have hnoDotC : ∀ x ∈ c, (x == '.') = false := fun x hx =>
      (isDigitAscii_ne_sep (hcD x hx)).2
    have hnoDotD : ∀ x ∈ d, (x == '.') = false := fun x hx =>
      (isDigitAscii_ne_sep (hdD x hx)).2
    have hnoSlashP : ∀ x ∈ p, (x == '/') = false := fun x hx =>
      (isDigitAscii_ne_sep (List.all_eq_true.mp hpd x hx)).1
    have haddrNoSlash :
        ∀ x ∈ a ++ '.' :: (b ++ '.' :: (c ++ '.' :: d)), (x == '/') = false := by
      intro x hx
      simp only [List.mem_append, List.mem_cons] at hx
      rcases hx with hx | hx | hx | hx | hx | hx | hx
      · exact (isDigitAscii_ne_sep (haD x hx)).1
      · subst hx; decide
      · exact (isDigitAscii_ne_sep (hbD x hx)).1
      · subst hx; decide
      · exact (isDigitAscii_ne_sep (hcD x hx)).1
      · subst hx; decide
      · exact (isDigitAscii_ne_sep (hdD x hx)).1
    have hassoc :
        a ++ '.' :: (b ++ '.' :: (c ++ '.' :: (d ++ '/' :: p)))
          = (a ++ '.' :: (b ++ '.' :: (c ++ '.' :: d))) ++ '/' :: p := by
      simp [List.append_assoc]
    have hslash :
        splitOnChar '/' (a ++ '.' :: (b ++ '.' :: (c ++ '.' :: (d ++ '/' :: p))))
          = [a ++ '.' :: (b ++ '.' :: (c ++ '.' :: d)), p] := by
      rw [hassoc, splitOnChar_append_sep '/' _ p haddrNoSlash,
        splitOnChar_no_sep '/' p hnoSlashP]
    have hdots :
        splitOnChar '.' (a ++ '.' :: (b ++ '.' :: (c ++ '.' :: d)))
          = [a, b, c, d] := by
      rw [splitOnChar_append_sep '.' a _ hnoDotA,
        splitOnChar_append_sep '.' b _ hnoDotB,
        splitOnChar_append_sep '.' c _ hnoDotC,
        splitOnChar_no_sep '.' d hnoDotD]
    have hne : (a ++ '.' :: (b ++ '.' :: (c ++ '.' :: (d ++ '/' :: p)))) ≠ [] := by
      intro hcontra
      have := congrArg List.length hcontra
      simp at this
    rw [isValidCidr]
    have hdata : (String.mk (a ++ '.' :: (b ++ '.' :: (c ++ '.' :: (d ++ '/' :: p))))).data
        = a ++ '.' :: (b ++ '.' :: (c ++ '.' :: (d ++ '/' :: p))) := rfl
    rw [hdata]
    have hemp : (a ++ '.' :: (b ++ '.' :: (c ++ '.' :: (d ++ '/' :: p)))).isEmpty = false := by
      cases hl : (a ++ '.' :: (b ++ '.' :: (c ++ '.' :: (d ++ '/' :: p)))) with
      | nil => exact absurd hl hne
      | cons x xs => rfl
    rw [hemp]
    simp only [Bool.false_eq_true, if_false]
    have hipv4 : ipv4CidrMatch (a ++ '.' :: (b ++ '.' :: (c ++ '.' :: (d ++ '/' :: p)))) = true := by
      rw [ipv4CidrMatch, hslash]
      simp only [hdots]
      simp [digitGroup13, ha1, ha3, haD, hb1, hb3, hbD, hc1, hc3, hcD, hd1, hd3, hdD,
        hp1, hp2, hpd]
      exact ⟨⟨⟨haD, hbD⟩, hcD⟩, hdD⟩
    rw [hipv4, Bool.true_or]

/-!
## Theorems: template validation
-/

/-- C8: a template file whose parsed object has the four required fields,
a non-empty string type and an object rules mapping validates with
valid = true and no errors whatever its version is; a version other than 1
only appends a warning. -/
theorem validateTemplate_version_only_warns
    (templateFiles : List (String × Option (List (String × JsonValue))))
    (templateFile : String) (t : List (String × JsonValue))
    (hfile : templateFiles.lookup templateFile = some (some t))
    (hv : (lookupField t "version").isSome = true)
    (hd : (lookupField t "description").isSome = true)
    (ht : ∃ s, lookupField t "type" = some (JsonValue.str s) ∧ s ≠ "")
    (hr : ∃ m, lookupField t "rules" = some (JsonValue.obj m)) :
    (validateTemplate templateFiles templateFile).valid = true ∧
    (validateTemplate templateFiles templateFile).errors = [] ∧
    (isVersionOne (lookupField t "version") = false →
      (validateTemplate templateFiles templateFile).warnings
        = ["Unexpected version (expected: 1)"]) := by
  obtain ⟨s, hts, hsne⟩ := ht
  obtain ⟨m, hrm⟩ := hr
  have htSome : (lookupField t "type").isSome = true := by rw [hts]; rfl
  have hrSome : (lookupField t "rules").isSome = true := by rw [hrm]; rfl
  have hsne' : (s == "") = false := beq_eq_false_iff_ne.mpr hsne
  have hcond3 : (jsFalsyField (lookupField t "type")
      || !isStringField (lookupField t "type")) = false := by
    rw [hts]; simp [jsFalsyField, isStringField, hsne']
  have hcond4 : (jsFalsyField (lookupField t "rules")
      || !isObjectField (lookupField t "rules")) = false := by
    rw [hrm]; simp [jsFalsyField, isObjectField]
  by_cases hver : isVersionOne (lookupField t "version") = true
  · simp [validateTemplate, hfile, validateTemplateObj, requiredTemplateFields,
      hv, hd, htSome, hrSome, hcond3, hcond4, hver]
  · have hver' : isVersionOne (lookupField t "version") = false := by
      simpa using hver
    simp [validateTemplate, hfile, validateTemplateObj, requiredTemplateFields,
      hv, hd, htSome, hrSome, hcond3, hcond4, hver']

theorem validateTemplate_version_only_warns_witness :
    (validateTemplate
        [("domain-suffix.json",
          some [("version", JsonValue.num 7), ("rules", JsonValue.obj []),
                ("description", JsonValue.str "demo"),
                ("type", JsonValue.str "domain-suffix")])]
        "domain-suffix.json").valid = true ∧
    (validateTemplate
        [("domain-suffix.json",
          some [("version", JsonValue.num 7), ("rules", JsonValue.obj []),
                ("description", JsonValue.str "demo"),
                ("type", JsonValue.str "domain-suffix")])]
        "domain-suffix.json").errors = [] ∧
    (isVersionOne (lookupField
        [("version", JsonValue.num 7), ("rules", JsonValue.obj []),
         ("description", JsonValue.str "demo"),
         ("type", JsonValue.str "domain-suffix")] "version") = false →
      (validateTemplate
        [("domain-suffix.json",
          some [("version", JsonValue.num 7), ("rules", JsonValue.obj []),
                ("description", JsonValue.str "demo"),
                ("type", JsonValue.str "domain-suffix")])]
        "domain-suffix.json").warnings = ["Unexpected version (expected: 1)"]) :=
  validateTemplate_version_only_warns
    [("domain-suffix.json",
      some [("version", JsonValue.num 7), ("rules", JsonValue.obj []),
            ("description", JsonValue.str "demo"),
            ("type", JsonValue.str "domain-suffix")])]
    "domain-suffix.json"
    [("version", JsonValue.num 7), ("rules", JsonValue.obj []),
     ("description", JsonValue.str "demo"),
     ("type", JsonValue.str "domain-suffix")]
    rfl rfl rfl
    ⟨"domain-suffix", rfl, by decide⟩
    ⟨[], rfl⟩

/-!
## Theorems: the builder
-/

theorem parseTextFile_snd (files : List (String × String)) (filePath : String) :
    (parseTextFile files filePath).2 = [] ∨
    (parseTextFile files filePath).2
      = [Effect.warn ("Source file not found: " ++ filePath)] := by
  cases hl : files.lookup filePath with
  | none => right; simp [parseTextFile, hl]
  | some content => left; simp [parseTextFile, hl]

/-- C7: buildRule returns null whenever the parsed source yields no lines
or filtering leaves no valid rules; in both cases the emitted effects are
warnings only — in particular nothing is written and the compiler is not
invoked. -/
theorem buildRule_skip_empty
    (env : BuildEnv) (type sourceFile outputFile : String)
    (h : (parseTextFile env.sources sourceFile).1 = [] ∨
      filterValidRules (parseTextFile env.sources sourceFile).1 type = []) :
    (buildRule env type sourceFile outputFile).1 = none ∧
    (∃ m, Effect.warn m ∈ (buildRule env type sourceFile outputFile).2) ∧
    ∀ e ∈ (buildRule env type sourceFile outputFile).2, ∃ m, e = Effect.warn m := by
  have hsnd := parseTextFile_snd env.sources sourceFile
  by_cases hn : (parseTextFile env.sources sourceFile).1 = []
  · have hres : buildRule env type sourceFile outputFile
        = (none, (parseTextFile env.sources sourceFile).2
            ++ [Effect.warn ("No rules found in " ++ sourceFile ++ ", skipping...")]) := by
      rw [buildRule]
      simp [hn]
    rw [hres]
    refine ⟨rfl, ⟨_, List.mem_append_right _ (List.mem_singleton_self _)⟩, ?_⟩
    intro e he
    rcases List.mem_append.mp he with h1 | h2
    · rcases hsnd with h0 | h0
      · rw [h0] at h1; exact absurd h1 (List.not_mem_nil e)
      · rw [h0] at h1; rw [List.mem_singleton.mp h1]; exact ⟨_, rfl⟩
    · rw [List.mem_singleton.mp h2]; exact ⟨_, rfl⟩
  · have hval : filterValidRules (parseTextFile env.sources sourceFile).1 type = [] :=
      h.resolve_left hn
    obtain ⟨x, xs, hx⟩ := List.exists_cons_of_ne_nil hn
    have hval' : filterValidRules (x :: xs) type = [] := hx ▸ hval
    have hres : buildRule env type sourceFile outputFile
        = (none, (parseTextFile env.sources sourceFile).2
            ++ [Effect.warn ("No valid rules found in " ++ sourceFile ++ ", skipping...")]) := by
      rw [buildRule]
      simp [hx, hval']
    rw [hres]
    refine ⟨rfl, ⟨_, List.mem_append_right _ (List.mem_singleton_self _)⟩, ?_⟩
    intro e he
    rcases List.mem_append.mp he with h1 | h2
    · rcases hsnd with h0 | h0
      · rw [h0] at h1; exact absurd h1 (List.not_mem_nil e)
      · rw [h0] at h1; rw [List.mem_singleton.mp h1]; exact ⟨_, rfl⟩
    · rw [List.mem_singleton.mp h2]; exact ⟨_, rfl⟩

theorem buildRule_skip_empty_witness :
    (buildRule
        { sources := [("direct-domains.txt", "# comments only")],
          templates := [],
          compiler := fun _ => { execOk := true, outputExists := true, outputSize := 1 },
          fallback := fun _ => { writeOk := true } }
        "domain-suffix" "direct-domains.txt" "direct-domains.srs").1 = none ∧
    (∃ m, Effect.warn m ∈ (buildRule
        { sources := [("direct-domains.txt", "# comments only")],
          templates := [],
          compiler := fun _ => { execOk := true, outputExists := true, outputSize := 1 },
          fallback := fun _ => { writeOk := true } }
        "domain-suffix" "direct-domains.txt" "direct-domains.srs").2) ∧
    ∀ e ∈ (buildRule
        { sources := [("direct-domains.txt", "# comments only")],
          templates := [],
          compiler := fun _ => { execOk := true, outputExists := true, outputSize := 1 },
          fallback := fun _ => { writeOk := true } }
        "domain-suffix" "direct-domains.txt" "direct-domains.srs").2,
      ∃ m, e = Effect.warn m :=
  buildRule_skip_empty
    { sources := [("direct-domains.txt", "# comments only")],
      templates := [],
      compiler := fun _ => { execOk := true, outputExists := true, outputSize := 1 },
      fallback := fun _ => { writeOk := true } }
    "domain-suffix" "direct-domains.txt" "direct-domains.srs"
    (Or.inl (by decide))

theorem buildWithSingBox_fst_false {c : CompilerOutcome} (out : String)
    (h : c.execOk = false ∨ c.outputExists = false ∨ c.outputSize = 0) :
    (buildWithSingBox c out).1 = false := by
  rcases h with h | h | h
  · simp [buildWithSingBox, h]
  · cases hex : c.execOk <;> simp [buildWithSingBox, hex, h]
  · cases hex : c.execOk <;> simp [buildWithSingBox, hex, h]

theorem buildSrsFile_fallback_true (c : CompilerOutcome) (f : FallbackOutcome)
    (out : String) (h1 : (buildWithSingBox c out).1 = false)
    (h2 : f.writeOk = true) :
    (buildSrsFile c f out).1 = true := by
  simp [buildSrsFile, h1, buildFallback, h2]

theorem buildAll_success_mono (env : BuildEnv) :
    ∀ (l : List RuleConfig) (acc : BuildResults) (r : BuildArtifact),
      r ∈ acc.success → r ∈ (l.foldl (buildStep env) acc).success := by
  intro l
  induction l with
  | nil => intro acc r h; exact h
  | cons cfg rest ih =>
    intro acc r h
    rw [List.foldl_cons]
    apply ih
    rw [buildStep]
    cases (buildRule env cfg.type cfg.source cfg.output).1 with
    | some a => simpa using Or.inl h
    | none => simpa using h

theorem buildAll_skipped_mono (env : BuildEnv) :
    ∀ (l : List RuleConfig) (acc : BuildResults) (c : RuleConfig),
      c ∈ acc.skipped → c ∈ (l.foldl (buildStep env) acc).skipped := by
  intro l
  induction l with
  | nil => intro acc c h; exact h
  | cons cfg rest ih =>
    intro acc c h
    rw [List.foldl_cons]
    apply ih
    rw [buildStep]
    cases (buildRule env cfg.type cfg.source cfg.output).1 with
    | some a => simpa using h
    | none => simpa using Or.inl h

theorem buildAll_foldl_mem_success (env : BuildEnv) :
    ∀ (l : List RuleConfig) (acc : BuildResults) (cfg : RuleConfig),
      cfg ∈ l →
      ∀ r : BuildArtifact,
        (buildRule env cfg.type cfg.source cfg.output).1 = some r →
        r ∈ (l.foldl (buildStep env) acc).success := by
  intro l
  induction l with
  | nil => intro acc cfg h; exact absurd h (List.not_mem_nil cfg)
  | cons c rest ih =>
    intro acc cfg hmem r hr
    rcases List.mem_cons.mp hmem with hcfg | hcfg
    · subst hcfg
      rw [List.foldl_cons]
      apply buildAll_success_mono
      rw [buildStep, hr]
      simp
    · rw [List.foldl_cons]
      exact ih _ cfg hcfg r hr

theorem buildAll_foldl_mem_skipped (env : BuildEnv) :
    ∀ (l : List RuleConfig) (acc : BuildResults) (cfg : RuleConfig),
      cfg ∈ l →
      (buildRule env cfg.type cfg.source cfg.output).1 = none →
      cfg ∈ (l.foldl (buildStep env) acc).skipped := by
  intro l
  induction l with
  | nil => intro acc cfg h; exact absurd h (List.not_mem_nil cfg)
  | cons c rest ih =>
    intro acc cfg hmem hr
    rcases List.mem_cons.mp hmem with hcfg | hcfg
    · subst hcfg
      rw [List.foldl_cons]
      apply buildAll_skipped_mono
      rw [buildStep, hr]
      simp
    · rw [List.foldl_cons]
      exact ih _ cfg hcfg hr

theorem buildAll_foldl_lengths (env : BuildEnv) :
    ∀ (l : List RuleConfig) (acc : BuildResults),
      (l.foldl (buildStep env) acc).success.length
        + (l.foldl (buildStep env) acc).skipped.length
        = acc.success.length + acc.skipped.length + l.length := by
  intro l
  induction l with
  | nil => intro acc; simp
  | cons c rest ih =>
    intro acc
    rw [List.foldl_cons, ih]
    rw [buildStep]
    cases (buildRule env c.type c.source c.output).1 with
    | some a => simp; omega
    | none => simp; omega

/-- C1: when the external compilation fails (thrown exec, missing or empty
output) but the fallback JSON write succeeds, buildSrsFile still reports
true, buildRule (whose earlier stages passed) returns a non-null artifact,
and buildAll records that artifact in its success list — success does not
imply a binary artifact. -/
theorem fallback_reports_success
    (env : BuildEnv) (cfg : RuleConfig) (hmem : cfg ∈ ruleConfigs)
    (hcomp : (env.compiler cfg.output).execOk = false ∨
      (env.compiler cfg.output).outputExists = false ∨
      (env.compiler cfg.output).outputSize = 0)
    (hfall : (env.fallback cfg.output).writeOk = true)
    (hrules : (parseTextFile env.sources cfg.source).1 ≠ [])
    (hvalid : filterValidRules (parseTextFile env.sources cfg.source).1 cfg.type ≠ [])
    (htempl : (loadTemplate env.templates cfg.output cfg.type).isSome = true) :
    (buildSrsFile (env.compiler cfg.output) (env.fallback cfg.output) cfg.output).1
      = true ∧
    ∃ r : BuildArtifact,
      (buildRule env cfg.type cfg.source cfg.output).1 = some r ∧
      r ∈ (buildAll env).success := by
  have hsb := buildWithSingBox_fst_false cfg.output hcomp
  have hs := buildSrsFile_fallback_true (env.compiler cfg.output)
    (env.fallback cfg.output) cfg.output hsb hfall
  refine ⟨hs, ?_⟩
  obtain ⟨t, ht⟩ := Option.isSome_iff_exists.mp htempl
  obtain ⟨x, xs, hx⟩ := List.exists_cons_of_ne_nil hrules
  have hvalid' : filterValidRules (x :: xs) cfg.type ≠ [] := hx ▸ hvalid
  obtain ⟨y, ys, hy⟩ := List.exists_cons_of_ne_nil hvalid'
  have hbr : ∃ r, (buildRule env cfg.type cfg.source cfg.output).1 = some r := by
    rw [buildRule]
    simp [hx, hy, ht, hs]
  obtain ⟨r, hr⟩ := hbr
  refine ⟨r, hr, ?_⟩
  rw [buildAll]
  exact buildAll_foldl_mem_success env ruleConfigs _ cfg hmem r hr

theorem fallback_reports_success_witness :
    (buildSrsFile
        (({ sources := [("direct-domains.txt", "example.com")],
            templates := [("domain-suffix.json",
              { version := 1, type := "domain-suffix", description := "demo" })],
            compiler := fun _ => { execOk := false, outputExists := false, outputSize := 0 },
            fallback := fun _ => { writeOk := true } } : BuildEnv).compiler "direct-domains.srs")
        (({ sources := [("direct-domains.txt", "example.com")],
            templates := [("domain-suffix.json",
              { version := 1, type := "domain-suffix", description := "demo" })],
            compiler := fun _ => { execOk := false, outputExists := false, outputSize := 0 },
            fallback := fun _ => { writeOk := true } } : BuildEnv).fallback "direct-domains.srs")
        "direct-domains.srs").1 = true ∧
    ∃ r : BuildArtifact,
      (buildRule
        { sources := [("direct-domains.txt", "example.com")],
          templates := [("domain-suffix.json",
            { version := 1, type := "domain-suffix", description := "demo" })],
          compiler := fun _ => { execOk := false, outputExists := false, outputSize := 0 },
          fallback := fun _ => { writeOk := true } }
        "domain-suffix" "direct-domains.txt" "direct-domains.srs").1 = some r ∧
      r ∈ (buildAll
        { sources := [("direct-domains.txt", "example.com")],
          templates := [("domain-suffix.json",
            { version := 1, type := "domain-suffix", description := "demo" })],
          compiler := fun _ => { execOk := false, outputExists := false, outputSize := 0 },
          fallback := fun _ => { writeOk := true } }).success :=
  fallback_reports_success
    { sources := [("direct-domains.txt", "example.com")],
      templates := [("domain-suffix.json",
        { version := 1, type := "domain-suffix", description := "demo" })],
      compiler := fun _ => { execOk := false, outputExists := false, outputSize := 0 },
      fallback := fun _ => { writeOk := true } }
    { type := "domain-suffix", source := "direct-domains.txt", output := "direct-domains.srs" }
    (by decide)
    (Or.inl rfl)
    rfl
    (by decide)
    (by decide)
    (by decide)

/-!
## Theorems: missing source files (builder versus validator)
-/

/-- C2 counterexample: on an empty source directory the Validator records
the missing source file as an error (with no warning) and marks it
invalid, and the aggregate run counts invalid files, so the CLI exits
non-zero — absence is not a mere warning for the Validator. -/
theorem validateSourceFile_missing_error_counterexample :
    (validateSourceFile [] "direct-domains.txt" "domain-suffix").valid = false ∧
    (validateSourceFile [] "direct-domains.txt" "domain-suffix").errors
      = ["Source file not found: direct-domains.txt"] ∧
    (validateSourceFile [] "direct-domains.txt" "domain-suffix").warnings = [] ∧
    0 < (validateAll [] []).summary.invalidFiles := by
  decide

theorem validateAll_source_invalid_mono (files : List (String × String)) :
    ∀ (l : List (String × String)) (acc : ValidationResults),
      acc.summary.invalidFiles
        ≤ (l.foldl (validateSourceStep files) acc).summary.invalidFiles := by
  intro l
  induction l with
  | nil => intro acc; exact le_refl _
  | cons c rest ih =>
    intro acc
    rw [List.foldl_cons]
    refine le_trans ?_ (ih _)
    rw [validateSourceStep]
    by_cases hv : (validateSourceFile files c.1 c.2).valid = true
    · simp [hv]
    · simp [hv]

theorem validateAll_template_invalid_mono
    (tf : List (String × Option (List (String × JsonValue)))) :
    ∀ (l : List String) (acc : ValidationResults),
      acc.summary.invalidFiles
        ≤ (l.foldl (validateTemplateStep tf) acc).summary.invalidFiles := by
  intro l
  induction l with
  | nil => intro acc; exact le_refl _
  | cons c rest ih =>
    intro acc
    rw [List.foldl_cons]
    refine le_trans ?_ (ih _)
    rw [validateTemplateStep]
    by_cases hv : (validateTemplate tf c).valid = true
    · simp [hv]
    · simp [hv]

theorem validateAll_source_invalid_pos (files : List (String × String)) :
    ∀ (l : List (String × String)) (acc : ValidationResults) (p : String × String),
      p ∈ l → (validateSourceFile files p.1 p.2).valid = false →
      0 < (l.foldl (validateSourceStep files) acc).summary.invalidFiles := by
  intro l
  induction l with
  | nil => intro acc p hp; exact absurd hp (List.not_mem_nil p)
  | cons c rest ih =>
    intro acc p hp hv
    rcases List.mem_cons.mp hp with hpc | hpc
    · subst hpc
      rw [List.foldl_cons]
      refine lt_of_lt_of_le ?_ (validateAll_source_invalid_mono files rest _)
      rw [validateSourceStep]
      simp [hv]
    · rw [List.foldl_cons]
      exact ih _ p hpc hv

theorem sourceStep_sources_length (files : List (String × String)) :
    ∀ (l : List (String × String)) (acc : ValidationResults),
      (l.foldl (validateSourceStep files) acc).sources.length
        = acc.sources.length + l.length := by
  intro l
  induction l with
  | nil => intro acc; simp
  | cons c rest ih =>
    intro acc
    rw [List.foldl_cons, ih, validateSourceStep]
    simp
    omega

theorem sourceStep_templates_eq (files : List (String × String)) :
    ∀ (l : List (String × String)) (acc : ValidationResults),
      (l.foldl (validateSourceStep files) acc).templates = acc.templates := by
  intro l
  induction l with
  | nil => intro acc; rfl
  | cons c rest ih =>
    intro acc
    rw [List.foldl_cons, ih, validateSourceStep]

theorem templateStep_templates_length
    (tf : List (String × Option (List (String × JsonValue)))) :
    ∀ (l : List String) (acc : ValidationResults),
      (l.foldl (validateTemplateStep tf) acc).templates.length
        = acc.templates.length + l.length := by
  intro l
  induction l with
  | nil => intro acc; simp
  | cons c rest ih =>
    intro acc
    rw [List.foldl_cons, ih, validateTemplateStep]
    simp
    omega

theorem templateStep_sources_eq
    (tf : List (String × Option (List (String × JsonValue)))) :
    ∀ (l : List String) (acc : ValidationResults),
      (l.foldl (validateTemplateStep tf) acc).sources = acc.sources := by
  intro l
  induction l with
  | nil => intro acc; rfl
  | cons c rest ih =>
    intro acc
    rw [List.foldl_cons, ih, validateTemplateStep]

/-- C2 amended: for a configured pair whose source file is absent, the
Builder logs a warning, buildRule returns null, buildAll records the
config as skipped and still processes every config; the Validator however
records the absence as an error and marks the file invalid — making the
aggregate run report invalid files (non-zero exit) — while still
processing all source and template configs. -/
theorem missing_source_builder_skips_validator_errors
    (env : BuildEnv) (cfg : RuleConfig)
    (hmem : cfg ∈ ruleConfigs)
    (hvmem : (cfg.source, cfg.type) ∈ validatorRuleConfigs)
    (habs : env.sources.lookup cfg.source = none)
    (templateFiles : List (String × Option (List (String × JsonValue)))) :
    (buildRule env cfg.type cfg.source cfg.output).1 = none ∧
    Effect.warn ("Source file not found: " ++ cfg.source)
      ∈ (buildRule env cfg.type cfg.source cfg.output).2 ∧
    cfg ∈ (buildAll env).skipped ∧
    (buildAll env).success.length + (buildAll env).skipped.length
      = ruleConfigs.length ∧
    (validateSourceFile env.sources cfg.source cfg.type).valid = false ∧
    (validateSourceFile env.sources cfg.source cfg.type).errors ≠ [] ∧
    0 < (validateAll env.sources templateFiles).summary.invalidFiles ∧
    (validateAll env.sources templateFiles).sources.length
      = validatorRuleConfigs.length ∧
    (validateAll env.sources templateFiles).templates.length
      = templateConfigs.length := by
  have hparse : parseTextFile env.sources cfg.source
      = ([], [Effect.warn ("Source file not found: " ++ cfg.source)]) := by
    simp [parseTextFile, habs]
  have hbr1 : (buildRule env cfg.type cfg.source cfg.output).1 = none := by
    rw [buildRule]
    simp [hparse]
  have hbrw : Effect.warn ("Source file not found: " ++ cfg.source)
      ∈ (buildRule env cfg.type cfg.source cfg.output).2 := by
    rw [buildRule]
    simp [hparse]
  have hskip : cfg ∈ (buildAll env).skipped := by
    rw [buildAll]
    exact buildAll_foldl_mem_skipped env ruleConfigs _ cfg hmem hbr1
  have hlen : (buildAll env).success.length + (buildAll env).skipped.length
      = ruleConfigs.length := by
    rw [buildAll]
    have h := buildAll_foldl_lengths env ruleConfigs
      { success := [], failed := [], skipped := [], totalRules := 0 }
    simpa using h
  have hval : (validateSourceFile env.sources cfg.source cfg.type).valid = false := by
    simp [validateSourceFile, habs]
  have herr : (validateSourceFile env.sources cfg.source cfg.type).errors ≠ [] := by
    simp [validateSourceFile, habs]
  have hpos : 0 < (validateAll env.sources templateFiles).summary.invalidFiles := by
    rw [validateAll]
    refine lt_of_lt_of_le ?_
      (validateAll_template_invalid_mono templateFiles templateConfigs _)
    exact validateAll_source_invalid_pos env.sources validatorRuleConfigs _
      (cfg.source, cfg.type) hvmem hval
  have hsrclen : (validateAll env.sources templateFiles).sources.length
      = validatorRuleConfigs.length := by
    rw [validateAll, templateStep_sources_eq]
    rw [sourceStep_sources_length]
    simp
  have htplen : (validateAll env.sources templateFiles).templates.length
      = templateConfigs.length := by
    rw [validateAll, templateStep_templates_length]
    rw [sourceStep_templates_eq]
    simp
  exact ⟨hbr1, hbrw, hskip, hlen, hval, herr, hpos, hsrclen, htplen⟩

/-- A concrete build environment with no source files, exercising the
missing-input path on a concrete input. -/
def emptyBuildEnv : BuildEnv :=
  { sources := [], templates := [],
    compiler := fun _ => { execOk := true, outputExists := true, outputSize := 1 },
    fallback := fun _ => { writeOk := true } }

theorem missing_source_builder_skips_validator_errors_witness :
    (buildRule emptyBuildEnv "domain-suffix" "direct-domains.txt"
        "direct-domains.srs").1 = none ∧
    Effect.warn ("Source file not found: " ++ "direct-domains.txt")
      ∈ (buildRule emptyBuildEnv "domain-suffix" "direct-domains.txt"
          "direct-domains.srs").2 ∧
    ({ type := "domain-suffix", source := "direct-domains.txt",
       output := "direct-domains.srs" } : RuleConfig)
      ∈ (buildAll emptyBuildEnv).skipped ∧
    (buildAll emptyBuildEnv).success.length
      + (buildAll emptyBuildEnv).skipped.length = ruleConfigs.length ∧
    (validateSourceFile emptyBuildEnv.sources "direct-domains.txt"
        "domain-suffix").valid = false ∧
    (validateSourceFile emptyBuildEnv.sources "direct-domains.txt"
        "domain-suffix").errors ≠ [] ∧
    0 < (validateAll emptyBuildEnv.sources []).summary.invalidFiles ∧
    (validateAll emptyBuildEnv.sources []).sources.length
      = validatorRuleConfigs.length ∧
    (validateAll emptyBuildEnv.sources []).templates.length
      = templateConfigs.length :=
  missing_source_builder_skips_validator_errors emptyBuildEnv
    { type := "domain-suffix", source := "direct-domains.txt",
      output := "direct-domains.srs" }
    (by decide) (by decide) rfl []
